import Mathlib

/-!
Shallow embedding of the DDMRP backend's core computation
(src/logic/ddmrp_engine.py, src/logic/netflow.py, and the per-SKU
orchestration loop of src/app/old_main.py) over exact rational arithmetic,
together with theorems settling the specification claims.

All quantities the Python code manipulates as floats are modelled as `ℚ`.
The single genuinely irrational intermediate quantity — the sample standard
deviation — is modelled through its square (the sample variance), which is
rational; everywhere this is done the development states explicitly how the
squared quantity relates to the code's value.
-/

namespace DDMRP

/-- Python's built-in `round` on an exact rational: round to the nearest
integer, ties to the even integer (banker's rounding).  This is the
semantics of `round(x)` in Python 3, used by `old_main.py` line 171. -/
def pythonRound (q : ℚ) : ℤ :=
  let n := ⌊q⌋
  let f := q - n
  if f < 1/2 then n
  else if 1/2 < f then n + 1
  else if Even n then n else n + 1

/-- The rounding step of the production decision, `old_main.py` lines 168–171:
`if rounding_value and rounding_value > 0:` take
`math.ceil(raw / rounding_value) * rounding_value`, else
`int(round(raw + 0.4999))`.  (A present but zero or negative rounding value
falls through to the `else` branch, exactly as Python's truthiness test does.) -/
def applyRounding (raw : ℚ) (roundingValue : Option ℚ) : ℚ :=
  match roundingValue with
  | some r => if 0 < r then (⌈raw / r⌉ : ℚ) * r else (pythonRound (raw + 4999/10000) : ℚ)
  | none => (pythonRound (raw + 4999/10000) : ℚ)

/-- Function `calculate_net_flow` from src/logic/netflow.py: on-hand plus open supply
minus qualified demand. -/
def calculate_net_flow (on_hand open_supply qualified_demand : ℚ) : ℚ :=
  on_hand + open_supply - qualified_demand

/-- The production decision of `old_main.py` lines 164–175: below top of
yellow, recommend `max(0, top_of_green - net_flow)` rounded per
`applyRounding`, suppressed to `0` when below MOQ; at or above top of
yellow recommend `0`. -/
def recommendedProduction (netFlow yellowTop greenTop moq : ℚ)
    (roundingValue : Option ℚ) : ℚ :=
  if netFlow < yellowTop then
    let raw := max 0 (greenTop - netFlow)
    let rounded := applyRounding raw roundingValue
    if rounded < moq then 0 else rounded
  else 0

/-- Round-half-up with ties toward +∞, the rounding rule the specification
claims for the no-increment branch (stated there as "add 0.4999 before
truncating").  Written from the spec's words, for comparison with
`applyRounding`. -/
def specRoundHalfUp (q : ℚ) : ℤ :=
  ⌊q + 1/2⌋

/-- One open sales order line (`OpenSalesOrder` of the data model): due date
(modelled as a point on a totally ordered rational timeline, in days) and
open quantity. -/
structure SalesOrder where
  due : ℚ
  qty : ℚ
deriving DecidableEq, Repr

/-- Function `calculate_qualified_demand` from src/logic/netflow.py, with the `today`
instant the code reads from the wall clock (`pd.Timestamp.today().normalize()`)
made an explicit argument.  Orders strictly before `today` are past due,
orders exactly at `today` are due today, and orders in
`(today, today + lead_time_weeks * 7]` whose individual open quantity
strictly exceeds the threshold are spikes.  The code sets
`threshold = adu if adu > 0 else float('inf')`; an infinite threshold
qualifies no order, which the embedding renders as the `else 0` branch. -/
def calculate_qualified_demand (orders : List SalesOrder) (adu : ℚ)
    (lead_time_weeks : ℚ) (today : ℚ) : ℚ :=
  if orders.isEmpty then 0
  else
    let past_due := ((orders.filter fun o => decide (o.due < today)).map (·.qty)).sum
    let due_today := ((orders.filter fun o => decide (o.due = today)).map (·.qty)).sum
    let spike_horizon := today + lead_time_weeks * 7
    let future_orders := orders.filter fun o =>
      decide (today < o.due) && decide (o.due ≤ spike_horizon)
    let spikes :=
      if 0 < adu then ((future_orders.filter fun o => decide (adu < o.qty)).map (·.qty)).sum
      else 0
    past_due + due_today + spikes

/-- From the claim's words: total open quantity of orders due strictly
before `today`. -/
def pastDueSum (orders : List SalesOrder) (today : ℚ) : ℚ :=
  ((orders.filter fun o => decide (o.due < today)).map (·.qty)).sum

/-- From the claim's words: total open quantity of orders due exactly
`today`. -/
def dueTodaySum (orders : List SalesOrder) (today : ℚ) : ℚ :=
  ((orders.filter fun o => decide (o.due = today)).map (·.qty)).sum

/-- From the claim's words: total open quantity of orders due in
`(today, today + lead_time_weeks * 7]` whose individual open quantity
strictly exceeds the adjusted ADU; no order qualifies when the adjusted ADU
is not positive. -/
def spikeSum (orders : List SalesOrder) (adu lead_time_weeks today : ℚ) : ℚ :=
  if 0 < adu then
    ((orders.filter fun o =>
        decide (today < o.due) && decide (o.due ≤ today + lead_time_weeks * 7) &&
        decide (adu < o.qty)).map (·.qty)).sum
  else 0

/-- Function `calculate_adu` from src/logic/ddmrp_engine.py: total quantity sold over
the window divided by the number of distinct weeks, `0` for an empty
window. -/
def calculate_adu (sales : List ℚ) (num_weeks : ℕ) : ℚ :=
  if 0 < num_weeks then sales.sum / num_weeks else 0

/-- Function `classify_lead_time_factor` from src/logic/ddmrp_engine.py. -/
def classify_lead_time_factor (lead_time_weeks : ℚ) : ℚ :=
  if lead_time_weeks ≤ 2 then 3/4
  else if lead_time_weeks ≤ 4 then 1/2
  else 3/10

/-- pandas `Series.quantile` with its default linear interpolation, on a list
of rationals: sort the values, take the virtual position `q * (n - 1)`, and
interpolate linearly between the two neighbouring order statistics.  (The
empty case, `NaN` in pandas, is mapped to `0`; no theorem evaluates it.) -/
def quantile (xs : List ℚ) (q : ℚ) : ℚ :=
  let ys := xs.insertionSort (· ≤ ·)
  let n := ys.length
  if n = 0 then 0
  else
    let h : ℚ := q * ((n : ℚ) - 1)
    let lo := (⌊h⌋).toNat
    let hi := (⌈h⌉).toNat
    let a := ys.getD lo 0
    let b := ys.getD hi 0
    a + (h - (⌊h⌋ : ℚ)) * (b - a)

/-- Function `classify_variability_factor` from src/logic/ddmrp_engine.py: the SKU
identifier 573602 is hardcoded to 1.5; otherwise the SKU's cov is classified
against the 33rd and 66th percentiles of the population's cov values.
(The code accepts the identifier as a string or an integer; SKU identifiers
are the integers produced by `clean_product_id`, so they are modelled
as `Option ℤ`, `none` standing for Python's `None` default.) -/
def classify_variability_factor (cov : ℚ) (all_covs : List ℚ)
    (sku : Option ℤ) : ℚ :=
  if sku = some 573602 then 3/2
  else
    let low_thresh := quantile all_covs (33/100)
    let high_thresh := quantile all_covs (66/100)
    if cov ≤ low_thresh then 3/10
    else if cov ≤ high_thresh then 1/2
    else 4/5

/-- The per-SKU buffer-zone fields computed by `calculate_ddmrp_fields`
(src/logic/ddmrp_engine.py lines 54–84). -/
structure BufferZones where
  weeklyAdu : ℚ
  adjustedAdu : ℚ
  cov : ℚ
  ltf : ℚ
  vf : ℚ
  yellow : ℚ
  green : ℚ
  redBase : ℚ
  redSafety : ℚ
  redZone : ℚ
deriving DecidableEq, Repr

/-- The zone-sizing core of `calculate_ddmrp_fields`
(src/logic/ddmrp_engine.py lines 54–71), as a function of the SKU's
`weekly_adu` and `cov` (which the Python function derives from the weekly
table; `weekly_adu` is reproduced by `calculate_adu`, while `cov` involves a
square root and is therefore taken as an input here — its computation is
modelled through squares by `estimatorCovSq`).  `all_covs = none` models the
Python default `all_covs=None`, in which case the variability factor is the
constant `0.5` and `classify_variability_factor` is never consulted. -/
def computeBufferZones (weekly_adu cov moq lead_time_weeks daf : ℚ)
    (is_340 : Bool) (all_covs : Option (List ℚ)) (sku : Option ℤ) : BufferZones :=
  let ltf := classify_lead_time_factor lead_time_weeks
  let vf := match all_covs with
    | some covs => classify_variability_factor cov covs sku
    | none => 1/2
  let adjusted_adu := weekly_adu * daf
  let yellow := adjusted_adu * lead_time_weeks
  let adjusted_moq := if is_340 then max moq (4 * adjusted_adu) else moq
  let green := max (adjusted_adu * lead_time_weeks * ltf) adjusted_moq
  let red_base := adjusted_adu * lead_time_weeks * ltf
  let red_safety := red_base * vf
  { weeklyAdu := weekly_adu
    adjustedAdu := adjusted_adu
    cov := cov
    ltf := ltf
    vf := vf
    yellow := yellow
    green := green
    redBase := red_base
    redSafety := red_safety
    redZone := red_base + red_safety }

/-- Top of red, `old_main.py` line 160. -/
def topOfRed (z : BufferZones) : ℚ := z.redZone

/-- Top of yellow, `old_main.py` line 161. -/
def topOfYellow (z : BufferZones) : ℚ := topOfRed z + z.yellow

/-- Top of green, `old_main.py` line 162. -/
def topOfGreen (z : BufferZones) : ℚ := topOfYellow z + z.green

/-- pandas `Series.mean`: sum divided by the number of entries.  (pandas
yields `NaN` on an empty series; Lean's `0 / 0 = 0` stands in for it, and no
theorem evaluates that case.) -/
def seriesMean (xs : List ℚ) : ℚ := xs.sum / xs.length

/-- The square of pandas `Series.std` (sample standard deviation,
`ddof = 1`): the sample variance `Σ (x - mean)² / (n - 1)`.  The standard
deviation itself is an irrational square root in general, so the development
carries its square, which is exact in `ℚ`.  (pandas yields `NaN` for fewer
than two entries; that case is mapped to `0` and no theorem evaluates it.) -/
def sampleVariance (xs : List ℚ) : ℚ :=
  if 2 ≤ xs.length then
    ((xs.map fun x => (x - seriesMean xs) ^ 2).sum) / ((xs.length : ℚ) - 1)
  else 0

/-- The square of one entry of `all_covs_data` (`old_main.py` lines 60–61):
per SKU, `std(Quantity Sold) / mean(Quantity Sold)` over the SKU's **entire**
sales series — no reference-week cutoff and no `adu > 0` guard.  Squared to
stay in `ℚ`: since a standard deviation is nonnegative, two covs computed
from positive means are equal iff their squares are. -/
def populationCovSq (sales : List ℚ) : ℚ :=
  sampleVariance sales / (seriesMean sales) ^ 2

/-- The square of the cov computed inside `calculate_ddmrp_fields`
(src/logic/ddmrp_engine.py lines 42–52), which is also the Usage Estimator
rule of the specification: restrict to weeks at or before the reference
week, divide total quantity sold by the number of distinct weeks to get
`weekly_adu`, and set `cov = std / weekly_adu` if `weekly_adu > 0`, else
`0`.  Rows are (week, quantity sold) pairs; squared for the same reason as
`populationCovSq`. -/
def estimatorCovSq (rows : List (ℤ × ℚ)) (reference_week : ℤ) : ℚ :=
  let hist := rows.filter fun r => decide (r.1 ≤ reference_week)
  let num_weeks := (hist.map (·.1)).dedup.length
  let weekly_adu := calculate_adu (hist.map (·.2)) num_weeks
  if 0 < weekly_adu then sampleVariance (hist.map (·.2)) / weekly_adu ^ 2 else 0

/-- One row of the merged per-SKU weekly table `master_df` of `old_main.py`
(one row per week): week label (sortable), MRP type, quantity sold,
inventory, and open production orders (the latter two already coerced to
numbers with missing values as `0`, per lines 101–102). -/
structure SkuRow where
  week : ℤ
  mrpType : String
  qtySold : ℚ
  inventory : ℚ
  prodOrders : ℚ
deriving DecidableEq, Repr

/-- Everything the per-SKU loop of `old_main.py` consumes for one SKU.
`cov` is the coefficient of variation `calculate_ddmrp_fields` computes for
the SKU (an irrational square root in general, hence carried as an input;
its computation is modelled by `estimatorCovSq`). -/
structure SkuData where
  sku : ℤ
  rows : List SkuRow
  salesOrders : List SalesOrder
  moq : ℚ
  leadTimeWeeks : ℕ
  is340 : Bool
  roundingValue : Option ℚ
  cov : ℚ
deriving DecidableEq, Repr

/-- One output record of the per-SKU loop (`output_data` of `old_main.py`
lines 178–198), the `PlanResult` of the data model. -/
structure PlanResult where
  sku : ℤ
  currentWeek : ℤ
  targetWeek : ℤ
  weeklyAdu : ℚ
  cov : ℚ
  redBase : ℚ
  redSafety : ℚ
  redZone : ℚ
  yellowZone : ℚ
  greenZone : ℚ
  topRed : ℚ
  topYellow : ℚ
  topGreen : ℚ
  netFlow : ℚ
  recommended : ℚ
  onHand : ℚ
  onOrder : ℚ
  qualifiedDemand : ℚ
deriving DecidableEq, Repr

/-- The body of the per-SKU loop of `old_main.py` (lines 64–199): skip the
SKU if its rows carry a single MRP type other than `"MTS"`; skip if no week
has positive inventory; otherwise take the latest positive-inventory week as
the current week, advance `leadTimeWeeks` positions in the sorted
distinct-week sequence to find the target week (skip when the sequence is
too short — the `IndexError` branch); then compute the buffer zones from the
historical window ending at the current week, qualified demand, net flow,
and the recommended production.  DAF is the default `1.0` and the SKU
identifier is not forwarded to `calculate_ddmrp_fields`, exactly as in the
call at lines 120–127.  Returns `none` for a skip, `some` for an emitted
`PlanResult`; the function is total, so no input raises. -/
def processSku (all_covs : Option (List ℚ)) (today : ℚ) (d : SkuData) :
    Option PlanResult :=
  let mrpTypes := d.rows.map (·.mrpType)
  if mrpTypes.dedup.length = 1 ∧ mrpTypes.head? ≠ some "MTS" then none
  else
    let sortedWeeks := ((d.rows.map (·.week)).dedup).insertionSort (· ≤ ·)
    let invWeeks := ((d.rows.filter fun r => decide (0 < r.inventory)).map (·.week)).dedup
    match (invWeeks.insertionSort (· ≤ ·)).getLast? with
    | none => none
    | some currentWeek =>
      match sortedWeeks.get? (sortedWeeks.indexOf currentWeek + d.leadTimeWeeks) with
      | none => none
      | some targetWeek =>
        let hist := d.rows.filter fun r => decide (r.week ≤ currentWeek)
        let numWeeks := (hist.map (·.week)).dedup.length
        let weeklyAdu := calculate_adu (hist.map (·.qtySold)) numWeeks
        let z := computeBufferZones weeklyAdu d.cov d.moq (d.leadTimeWeeks : ℚ) 1
          d.is340 all_covs none
        let redTop := topOfRed z
        let yellowTop := topOfYellow z
        let greenTop := topOfGreen z
        let qd := calculate_qualified_demand d.salesOrders z.adjustedAdu
          (d.leadTimeWeeks : ℚ) today
        let onHand := ((d.rows.find? fun r => decide (r.week = currentWeek)).map
          (·.inventory)).getD 0
        let onOrder := ((d.rows.filter fun r => decide (currentWeek ≤ r.week)).map
          (·.prodOrders)).sum
        let netFlow := calculate_net_flow onHand onOrder qd
        let recQty := recommendedProduction netFlow yellowTop greenTop d.moq
          d.roundingValue
        some { sku := d.sku
               currentWeek := currentWeek
               targetWeek := targetWeek
               weeklyAdu := weeklyAdu
               cov := d.cov
               redBase := z.redBase
               redSafety := z.redSafety
               redZone := z.redZone
               yellowZone := z.yellow
               greenZone := z.green
               topRed := redTop
               topYellow := yellowTop
               topGreen := greenTop
               netFlow := netFlow
               recommended := recQty
               onHand := onHand
               onOrder := onOrder
               qualifiedDemand := qd }

/-- One invocation of `main()` in `old_main.py`, as a transformer of the
module-level `all_results` list (line 8): the run appends one `PlanResult`
per successfully planned SKU to whatever the list already holds, and the
summary file is written from the whole list (line 218). -/
def runPlanning (inputs : List SkuData) (all_covs : Option (List ℚ))
    (today : ℚ) (all_results : List PlanResult) : List PlanResult :=
  all_results ++ inputs.filterMap (processSku all_covs today)

end DDMRP

namespace DDMRP

/-- If `m - 1/2 < q < m + 1/2` then Python's round returns `m`. -/
theorem pythonRound_eq_of_lt_of_lt (q : ℚ) (m : ℤ)
    (h₁ : (m : ℚ) - 1/2 < q) (h₂ : q < (m : ℚ) + 1/2) : pythonRound q = m := by
  unfold pythonRound
  rcases le_or_lt (m : ℚ) q with hq | hq
  · have hfl : ⌊q⌋ = m := by
      rw [Int.floor_eq_iff]
      constructor
      · exact_mod_cast hq
      · calc q < (m : ℚ) + 1/2 := h₂
          _ ≤ (m : ℚ) + 1 := by linarith
    simp only [hfl]
    have : q - (m : ℚ) < 1/2 := by linarith
    rw [if_pos this]
  · have hfl : ⌊q⌋ = m - 1 := by
      rw [Int.floor_eq_iff]
      constructor <;> push_cast <;> linarith
    simp only [hfl]
    have hge : ¬ (q - ((m : ℚ) - 1) < 1/2) := by
      intro hcon
      linarith
    have hgt : 1/2 < q - (((m : ℚ)) - 1) := by
      linarith
    rw [if_neg (by push_cast at hge ⊢; exact hge)]
    rw [if_pos (by push_cast at hgt ⊢; exact hgt)]
    ring

/-- C1: for every on-hand, on-order, qualified demand, buffer boundaries,
MOQ and rounding increment, if the net flow `on_hand + on_order -
qualified_demand` is at or above top of yellow, the recommended production
quantity is exactly 0. -/
theorem recommended_zero_of_netflow_ge_top_of_yellow
    (on_hand on_order qualified_demand yellowTop greenTop moq : ℚ)
    (roundingValue : Option ℚ)
    (h : yellowTop ≤ calculate_net_flow on_hand on_order qualified_demand) :
    recommendedProduction (calculate_net_flow on_hand on_order qualified_demand)
      yellowTop greenTop moq roundingValue = 0 := by
  unfold recommendedProduction
  rw [if_neg (not_lt.mpr h)]

/-- Witness for C1: with on-hand 10, nothing on order, no qualified demand,
top of yellow 5, top of green 7, the recommendation is 0. -/
theorem recommended_zero_of_netflow_ge_top_of_yellow_witness :
    recommendedProduction (calculate_net_flow 10 0 0) 5 7 0 none = 0 :=
  recommended_zero_of_netflow_ge_top_of_yellow 10 0 0 5 7 0 none
    (by norm_num [calculate_net_flow])

/-- C3: whenever the net flow is below top of yellow and the rounded raw
recommendation is strictly below MOQ, the recommended production is 0 — the
sub-MOQ recommendation is suppressed, never floored up to MOQ, even when the
raw recommendation is strictly positive. -/
theorem recommended_zero_of_rounded_below_moq
    (netFlow yellowTop greenTop moq : ℚ) (roundingValue : Option ℚ)
    (hnf : netFlow < yellowTop)
    (hlt : applyRounding (max 0 (greenTop - netFlow)) roundingValue < moq) :
    recommendedProduction netFlow yellowTop greenTop moq roundingValue = 0 := by
  unfold recommendedProduction
  rw [if_pos hnf]
  dsimp only
  rw [if_pos hlt]

/-- Witness for C3: net flow 10 below top of yellow 20, raw recommendation
`12 - 10 = 2 > 0`, rounded to 2, below MOQ 5 — recommendation is 0. -/
theorem recommended_zero_of_rounded_below_moq_witness :
    (0:ℚ) < max 0 ((12:ℚ) - 10) ∧
    recommendedProduction 10 20 12 5 none = 0 :=
  ⟨by norm_num,
   recommended_zero_of_rounded_below_moq 10 20 12 5 none (by norm_num)
     (by norm_num [applyRounding, pythonRound])⟩

/-- C2, counterexample: with no rounding increment and raw recommendation
12.3, the code (`int(round(raw + 0.4999))`, Python's banker's `round`)
yields 13, while the claimed round-half-up rule yields 12 — so the
no-increment branch is not round-half-up. -/
theorem rounding_not_round_half_up_counterexample :
    applyRounding (123/10) none = 13 ∧ specRoundHalfUp (123/10) = 12 ∧
    applyRounding (123/10) none ≠ ((specRoundHalfUp (123/10) : ℤ) : ℚ) := by
  refine ⟨?_, ?_, ?_⟩ <;> norm_num [applyRounding, pythonRound, specRoundHalfUp]

/-- C2, amended: with a rounding increment `r > 0` the recommendation is
`ceil(raw / r) * r` (increment 5 with raw 12 gives 15); with no increment
the code computes Python's `round(raw + 0.4999)`, which equals the ceiling
`⌈raw⌉` whenever the fractional part of `raw` exceeds 0.0001 — in particular
raw 12.5 gives 13, but so does raw 12.3: the rule is a near-ceiling, not
round-half-up. -/
theorem rounding_amended (raw r : ℚ) (hr : 0 < r)
    (hf : 1/10000 < Int.fract raw) :
    applyRounding raw (some r) = (⌈raw / r⌉ : ℚ) * r ∧
    applyRounding raw none = (⌈raw⌉ : ℚ) ∧
    applyRounding 12 (some 5) = 15 ∧
    applyRounding (25/2) none = 13 := by
  refine ⟨?_, ?_, ?_, ?_⟩
  · show (if 0 < r then ((⌈raw / r⌉ : ℤ) : ℚ) * r else _) = _
    rw [if_pos hr]
  · show ((pythonRound (raw + 4999/10000) : ℤ) : ℚ) = ((⌈raw⌉ : ℤ) : ℚ)
    have hfloor : (⌊raw⌋ : ℚ) + Int.fract raw = raw := Int.floor_add_fract raw
    have hceil : ⌈raw⌉ = ⌊raw⌋ + 1 := by
      have h₁ : ⌊raw⌋ < ⌈raw⌉ := by
        rw [Int.lt_ceil]
        have := Int.fract_nonneg raw
        nlinarith [hf]
      have h₂ : ⌈raw⌉ ≤ ⌊raw⌋ + 1 := Int.ceil_le_floor_add_one raw
      omega
    have hlt1 : Int.fract raw < 1 := Int.fract_lt_one raw
    have := pythonRound_eq_of_lt_of_lt (raw + 4999/10000) (⌊raw⌋ + 1)
      (by push_cast; linarith) (by push_cast; linarith)
    rw [this, hceil]
  · show (if (0:ℚ) < 5 then ((⌈(12:ℚ) / 5⌉ : ℤ) : ℚ) * 5
      else ((pythonRound ((12:ℚ) + 4999/10000) : ℤ) : ℚ)) = 15
    rw [if_pos (by norm_num), show (⌈(12:ℚ) / 5⌉ : ℤ) = 3 by
      rw [Int.ceil_eq_iff]
      norm_num]
    norm_num
  · norm_num [applyRounding, pythonRound]

/-- C4: qualified demand decomposes as past-due plus due-today plus spikes,
where spikes count only orders due in `(today, today + lead_time_weeks * 7]`
whose individual open quantity strictly exceeds the adjusted ADU; when the
adjusted ADU is not positive no future order qualifies; an empty order set
gives 0; and the spec's scenario (adu 10, lead time 1 week, a past-due order
of qty 5 and an order due in 3 days of qty 20) yields 25. -/
theorem qualified_demand_decomposition (orders : List SalesOrder)
    (adu lead_time_weeks today : ℚ) :
    calculate_qualified_demand orders adu lead_time_weeks today
      = pastDueSum orders today + dueTodaySum orders today
        + spikeSum orders adu lead_time_weeks today
    ∧ (∀ a : ℚ, a ≤ 0 →
        calculate_qualified_demand orders a lead_time_weeks today
          = pastDueSum orders today + dueTodaySum orders today)
    ∧ calculate_qualified_demand [] adu lead_time_weeks today = 0
    ∧ calculate_qualified_demand [⟨-2, 5⟩, ⟨3, 20⟩] 10 1 0 = 25 := by
  have hdec : ∀ (a : ℚ),
      calculate_qualified_demand orders a lead_time_weeks today
        = pastDueSum orders today + dueTodaySum orders today
          + spikeSum orders a lead_time_weeks today := by
    intro a
    unfold calculate_qualified_demand pastDueSum dueTodaySum spikeSum
    cases orders with
    | nil => simp
    | cons o os =>
      simp only [List.isEmpty_cons, if_neg (by simp : ¬ false = true)]
      congr 1
      split_ifs with ha
      · rw [List.filter_filter]
        refine congrArg List.sum
          (congrArg (List.map fun (x : SalesOrder) => x.qty) (List.filter_congr ?_))
        intro x _
        cases decide (a < x.qty) <;> cases decide (today < x.due) <;>
          cases decide (x.due ≤ today + lead_time_weeks * 7) <;> rfl
      · rfl
  refine ⟨hdec adu, ?_, ?_, ?_⟩
  · intro a ha
    rw [hdec a]
    have : spikeSum orders a lead_time_weeks today = 0 := by
      unfold spikeSum
      rw [if_neg (not_lt.mpr ha)]
    rw [this, add_zero]
  · unfold calculate_qualified_demand
    simp
  · norm_num [calculate_qualified_demand, List.filter]

/-- Witness for C4: the decomposition at the spec's concrete scenario, and
the no-spike conjunct discharged at adjusted ADU 0. -/
theorem qualified_demand_decomposition_witness :
    calculate_qualified_demand [⟨-2, 5⟩, ⟨3, 20⟩] 10 1 0
      = pastDueSum [⟨-2, 5⟩, ⟨3, 20⟩] 0 + dueTodaySum [⟨-2, 5⟩, ⟨3, 20⟩] 0
        + spikeSum [⟨-2, 5⟩, ⟨3, 20⟩] 10 1 0
    ∧ calculate_qualified_demand [⟨-2, 5⟩, ⟨3, 20⟩] 0 1 0
      = pastDueSum [⟨-2, 5⟩, ⟨3, 20⟩] 0 + dueTodaySum [⟨-2, 5⟩, ⟨3, 20⟩] 0 :=
  ⟨(qualified_demand_decomposition [⟨-2, 5⟩, ⟨3, 20⟩] 10 1 0).1,
   (qualified_demand_decomposition [⟨-2, 5⟩, ⟨3, 20⟩] 10 1 0).2.1 0 le_rfl⟩

/-- The lead-time factor is one of 0.75, 0.5, 0.3, hence positive. -/
theorem classify_lead_time_factor_pos (lead_time_weeks : ℚ) :
    0 < classify_lead_time_factor lead_time_weeks := by
  unfold classify_lead_time_factor
  split_ifs <;> norm_num

/-- The variability factor is one of 1.5, 0.3, 0.5, 0.8, hence positive. -/
theorem classify_variability_factor_pos (cov : ℚ) (all_covs : List ℚ)
    (sku : Option ℤ) : 0 < classify_variability_factor cov all_covs sku := by
  unfold classify_variability_factor
  dsimp only
  split_ifs <;> norm_num

/-- The variability factor used by `computeBufferZones` is positive in both
the populated and the `none` case. -/
theorem bufferZones_vf_pos (weekly_adu cov moq lead_time_weeks daf : ℚ)
    (is_340 : Bool) (all_covs : Option (List ℚ)) (sku : Option ℤ) :
    0 < (computeBufferZones weekly_adu cov moq lead_time_weeks daf is_340
      all_covs sku).vf := by
  unfold computeBufferZones
  cases all_covs with
  | none => norm_num
  | some covs => exact classify_variability_factor_pos cov covs sku

/-- C5: for positive weekly ADU and lead time, nonnegative MOQ and DAF, all
three buffer zones are nonnegative and the cumulative boundaries satisfy
top of red ≤ top of yellow ≤ top of green. -/
theorem buffer_zones_nonneg_and_ordered
    (weekly_adu cov moq lead_time_weeks daf : ℚ) (is_340 : Bool)
    (all_covs : Option (List ℚ)) (sku : Option ℤ)
    (hadu : 0 < weekly_adu) (hlt : 0 < lead_time_weeks)
    (hmoq : 0 ≤ moq) (hdaf : 0 ≤ daf) :
    0 ≤ (computeBufferZones weekly_adu cov moq lead_time_weeks daf is_340
          all_covs sku).redZone
    ∧ 0 ≤ (computeBufferZones weekly_adu cov moq lead_time_weeks daf is_340
          all_covs sku).yellow
    ∧ 0 ≤ (computeBufferZones weekly_adu cov moq lead_time_weeks daf is_340
          all_covs sku).green
    ∧ topOfRed (computeBufferZones weekly_adu cov moq lead_time_weeks daf
          is_340 all_covs sku)
      ≤ topOfYellow (computeBufferZones weekly_adu cov moq lead_time_weeks daf
          is_340 all_covs sku)
    ∧ topOfYellow (computeBufferZones weekly_adu cov moq lead_time_weeks daf
          is_340 all_covs sku)
      ≤ topOfGreen (computeBufferZones weekly_adu cov moq lead_time_weeks daf
          is_340 all_covs sku) := by
  have hltf := classify_lead_time_factor_pos lead_time_weeks
  have hadj : 0 ≤ weekly_adu * daf := mul_nonneg hadu.le hdaf
  have hyel : 0 ≤ weekly_adu * daf * lead_time_weeks := mul_nonneg hadj hlt.le
  have hbase : 0 ≤ weekly_adu * daf * lead_time_weeks *
      classify_lead_time_factor lead_time_weeks := mul_nonneg hyel hltf.le
  have hmoqadj : 0 ≤ (if is_340 then max moq (4 * (weekly_adu * daf)) else moq) := by
    split_ifs
    · exact le_max_of_le_left hmoq
    · exact hmoq
  have hgreen : 0 ≤ max (weekly_adu * daf * lead_time_weeks *
      classify_lead_time_factor lead_time_weeks)
      (if is_340 then max moq (4 * (weekly_adu * daf)) else moq) :=
    le_max_of_le_left hbase
  have key : ∀ V : ℚ, 0 < V →
      (0 ≤ weekly_adu * daf * lead_time_weeks *
          classify_lead_time_factor lead_time_weeks +
          weekly_adu * daf * lead_time_weeks *
          classify_lead_time_factor lead_time_weeks * V)
      ∧ (weekly_adu * daf * lead_time_weeks *
          classify_lead_time_factor lead_time_weeks +
          weekly_adu * daf * lead_time_weeks *
          classify_lead_time_factor lead_time_weeks * V
          ≤ weekly_adu * daf * lead_time_weeks *
            classify_lead_time_factor lead_time_weeks +
            weekly_adu * daf * lead_time_weeks *
            classify_lead_time_factor lead_time_weeks * V
            + weekly_adu * daf * lead_time_weeks)
      ∧ (weekly_adu * daf * lead_time_weeks *
          classify_lead_time_factor lead_time_weeks +
          weekly_adu * daf * lead_time_weeks *
          classify_lead_time_factor lead_time_weeks * V
          + weekly_adu * daf * lead_time_weeks
          ≤ weekly_adu * daf * lead_time_weeks *
            classify_lead_time_factor lead_time_weeks +
            weekly_adu * daf * lead_time_weeks *
            classify_lead_time_factor lead_time_weeks * V
            + weekly_adu * daf * lead_time_weeks
            + max (weekly_adu * daf * lead_time_weeks *
                classify_lead_time_factor lead_time_weeks)
              (if is_340 then max moq (4 * (weekly_adu * daf)) else moq)) := by
    intro V hV
    have hsafety : 0 ≤ weekly_adu * daf * lead_time_weeks *
        classify_lead_time_factor lead_time_weeks * V := mul_nonneg hbase hV.le
    exact ⟨by linarith, by linarith, by linarith⟩
  rcases all_covs with _ | covs
  · unfold computeBufferZones topOfGreen topOfYellow topOfRed
    dsimp only
    obtain ⟨k1, k2, k3⟩ := key (1/2) (by norm_num)
    exact ⟨k1, hyel, hgreen, k2, k3⟩
  · unfold computeBufferZones topOfGreen topOfYellow topOfRed
    dsimp only
    obtain ⟨k1, k2, k3⟩ := key (classify_variability_factor cov covs sku)
      (classify_variability_factor_pos cov covs sku)
    exact ⟨k1, hyel, hgreen, k2, k3⟩

/-- Witness for C5: weekly ADU 10, lead time 2 weeks, MOQ 0, DAF 1, no
population distribution — the zones are nonnegative and the boundaries
ordered. -/
theorem buffer_zones_nonneg_and_ordered_witness :
    0 ≤ (computeBufferZones 10 0 0 2 1 false none none).redZone
    ∧ 0 ≤ (computeBufferZones 10 0 0 2 1 false none none).yellow
    ∧ 0 ≤ (computeBufferZones 10 0 0 2 1 false none none).green
    ∧ topOfRed (computeBufferZones 10 0 0 2 1 false none none)
      ≤ topOfYellow (computeBufferZones 10 0 0 2 1 false none none)
    ∧ topOfYellow (computeBufferZones 10 0 0 2 1 false none none)
      ≤ topOfGreen (computeBufferZones 10 0 0 2 1 false none none) :=
  buffer_zones_nonneg_and_ordered 10 0 0 2 1 false none none
    (by norm_num) (by norm_num) (by norm_num) (by norm_num)

/-- C6: for SKUs other than the hardcoded exception, the variability factor
is monotone non-decreasing in the SKU's cov against the population
distribution, taking value 0.3 at or below the 33rd percentile, 0.5 at or
below the 66th, and 0.8 above it; the exception SKU 573602 always receives
1.5 regardless of its cov. -/
theorem variability_factor_monotone (all_covs : List ℚ) (sku : Option ℤ)
    (c₁ c₂ : ℚ) (hsku : sku ≠ some 573602) (hc : c₁ ≤ c₂) :
    classify_variability_factor c₁ all_covs sku
      ≤ classify_variability_factor c₂ all_covs sku
    ∧ (c₁ ≤ quantile all_covs (33/100) →
        classify_variability_factor c₁ all_covs sku = 3/10)
    ∧ (¬ c₁ ≤ quantile all_covs (33/100) → c₁ ≤ quantile all_covs (66/100) →
        classify_variability_factor c₁ all_covs sku = 1/2)
    ∧ (¬ c₁ ≤ quantile all_covs (33/100) → ¬ c₁ ≤ quantile all_covs (66/100) →
        classify_variability_factor c₁ all_covs sku = 4/5)
    ∧ (∀ c : ℚ, classify_variability_factor c all_covs (some 573602) = 3/2) := by
  unfold classify_variability_factor
  rw [if_neg hsku]
  refine ⟨?_, ?_, ?_, ?_, fun c => by rw [if_pos rfl]⟩
  · dsimp only
    split_ifs <;> linarith
  · intro h
    dsimp only
    rw [if_pos h]
  · intro h1 h2
    dsimp only
    rw [if_neg h1, if_pos h2]
  · intro h1 h2
    dsimp only
    rw [if_neg h1, if_neg h2]

/-- Witness for C6: population [0], non-exception SKU, covs 0 ≤ 1. -/
theorem variability_factor_monotone_witness :
    classify_variability_factor 0 [0] none
      ≤ classify_variability_factor 1 [0] none
    ∧ ((0:ℚ) ≤ quantile [0] (33/100) →
        classify_variability_factor 0 [0] none = 3/10)
    ∧ (¬ (0:ℚ) ≤ quantile [0] (33/100) → (0:ℚ) ≤ quantile [0] (66/100) →
        classify_variability_factor 0 [0] none = 1/2)
    ∧ (¬ (0:ℚ) ≤ quantile [0] (33/100) → ¬ (0:ℚ) ≤ quantile [0] (66/100) →
        classify_variability_factor 0 [0] none = 4/5)
    ∧ (∀ c : ℚ, classify_variability_factor c [0] (some 573602) = 3/2) :=
  variability_factor_monotone [0] none 0 1 (by simp) (by norm_num)

/-- C10: when `calculate_ddmrp_fields` is invoked with `all_covs = None`,
the variability factor is the constant 0.5 for every SKU and every cov —
including the hardcoded exception SKU 573602, whose 1.5 override is bypassed
because `classify_variability_factor` is never called, even though the
classifier itself would return 1.5 for it. -/
theorem vf_half_when_population_absent
    (weekly_adu cov moq lead_time_weeks daf : ℚ) (is_340 : Bool) :
    (∀ sku : Option ℤ,
      (computeBufferZones weekly_adu cov moq lead_time_weeks daf is_340
        none sku).vf = 1/2)
    ∧ (computeBufferZones weekly_adu cov moq lead_time_weeks daf is_340
        none (some 573602)).vf = 1/2
    ∧ (∀ covs : List ℚ,
        classify_variability_factor cov covs (some 573602) = 3/2) :=
  ⟨fun _ => rfl, rfl, fun covs => by unfold classify_variability_factor; rw [if_pos rfl]⟩

/-- C7, counterexample: for a SKU with sales 0, 0, 0 in weeks 1–3 and 8 in
week 4, planned against reference week 3, the Usage Estimator cov is 0 (the
window's ADU is 0, so the `adu > 0` guard applies), while the population
entry computed by `old_main.py` lines 60–61 over the full series has
cov² = 4 (cov = 2): the population distribution does not consist of the
Usage Estimator cov values. -/
theorem population_cov_mismatch_counterexample :
    populationCovSq [0, 0, 0, 8] = 4
    ∧ estimatorCovSq [(1, 0), (2, 0), (3, 0), (4, 8)] 3 = 0
    ∧ populationCovSq (([(1, 0), (2, 0), (3, 0), (4, 8)] : List (ℤ × ℚ)).map (·.2))
        ≠ estimatorCovSq [(1, 0), (2, 0), (3, 0), (4, 8)] 3 := by
  have h1 : populationCovSq [0, 0, 0, 8] = 4 := by
    norm_num [populationCovSq, sampleVariance, seriesMean]
  have h2 : estimatorCovSq [(1, 0), (2, 0), (3, 0), (4, 8)] 3 = 0 := by
    unfold estimatorCovSq
    norm_num [List.filter, calculate_adu]
  refine ⟨h1, h2, ?_⟩
  have : (([(1, 0), (2, 0), (3, 0), (4, 8)] : List (ℤ × ℚ)).map (·.2))
      = [0, 0, 0, 8] := by norm_num
  rw [this, h1, h2]
  norm_num

/-- C7, amended: the population distribution is computed once, before any
per-SKU classification, but each entry is `std / mean` of the SKU's full
sales series, with no reference-week cutoff and no `adu > 0` guard.  It
agrees with the Usage Estimator cov exactly when the reference week covers
the SKU's whole history, the weekly table has one row per distinct week, and
the full-series mean is positive. -/
theorem population_cov_eq_estimator_of_full_window
    (rows : List (ℤ × ℚ)) (reference_week : ℤ)
    (hcover : ∀ r ∈ rows, r.1 ≤ reference_week)
    (hnodup : (rows.map (·.1)).Nodup)
    (hmean : 0 < seriesMean (rows.map (·.2)))
    (hne : rows ≠ []) :
    estimatorCovSq rows reference_week = populationCovSq (rows.map (·.2)) := by
  have hfilter : rows.filter (fun r => decide (r.1 ≤ reference_week)) = rows :=
    List.filter_eq_self.mpr (fun a ha => by simpa using hcover a ha)
  have hdedup : ((rows.map (·.1)).dedup) = rows.map (·.1) :=
    List.dedup_eq_self.mpr hnodup
  have hpos : 0 < rows.length := List.length_pos.mpr hne
  unfold estimatorCovSq populationCovSq calculate_adu seriesMean
  rw [hfilter]
  dsimp only
  rw [hdedup, List.length_map, List.length_map, if_pos hpos]
  have hmean' : 0 < (rows.map fun x => x.2).sum / (rows.length : ℚ) := by
    have := hmean
    unfold seriesMean at this
    rwa [List.length_map] at this
  rw [if_pos hmean']

/-- Witness for C7 (amended): a two-week history fully covered by the
reference week with positive mean — the estimator cov² equals the population
cov². -/
theorem population_cov_eq_estimator_of_full_window_witness :
    estimatorCovSq [(1, 2), (2, 4)] 2
      = populationCovSq (([(1, 2), (2, 4)] : List (ℤ × ℚ)).map (·.2)) :=
  population_cov_eq_estimator_of_full_window [(1, 2), (2, 4)] 2
    (by norm_num) (by norm_num) (by norm_num [seriesMean]) (by simp)

/-- C9: the per-SKU loop is total — each SKU yields `some` PlanResult or a
`none` skip, never an exception — and both skip conditions hold: a SKU with
no week of positive inventory is skipped, and a SKU whose current week has
no week `leadTimeWeeks` positions later in its sorted distinct-week sequence
is skipped. -/
theorem orchestrator_skips_without_error (all_covs : Option (List ℚ))
    (today : ℚ) (d : SkuData) :
    ((d.rows.filter fun r => decide (0 < r.inventory)) = [] →
      processSku all_covs today d = none)
    ∧ (∀ currentWeek : ℤ,
        ((((d.rows.filter fun r => decide (0 < r.inventory)).map
            (·.week)).dedup).insertionSort (· ≤ ·)).getLast? = some currentWeek →
        (((d.rows.map (·.week)).dedup).insertionSort (· ≤ ·)).length
          ≤ (((d.rows.map (·.week)).dedup).insertionSort (· ≤ ·)).indexOf
              currentWeek + d.leadTimeWeeks →
        processSku all_covs today d = none) := by
  constructor
  · intro h
    unfold processSku
    dsimp only
    split_ifs with hmt
    · rfl
    · rw [h]
      rfl
  · intro currentWeek hlast hlen
    unfold processSku
    dsimp only
    split_ifs with hmt
    · rfl
    · rw [hlast]
      dsimp only
      rw [List.get?_eq_none.mpr hlen]

/-- Witness for C9: a SKU whose only week has zero inventory is skipped, and
a SKU whose only week carries inventory but has no week one lead time later
is skipped. -/
theorem orchestrator_skips_without_error_witness :
    processSku none 0 ⟨1, [⟨1, "MTS", 10, 0, 0⟩], [], 0, 1, false, none, 0⟩ = none
    ∧ processSku none 0 ⟨2, [⟨1, "MTS", 10, 5, 0⟩], [], 0, 1, false, none, 0⟩ = none :=
  ⟨(orchestrator_skips_without_error none 0
      ⟨1, [⟨1, "MTS", 10, 0, 0⟩], [], 0, 1, false, none, 0⟩).1
      (by norm_num [List.filter]),
   (orchestrator_skips_without_error none 0
      ⟨2, [⟨1, "MTS", 10, 5, 0⟩], [], 0, 1, false, none, 0⟩).2 1
      (by norm_num [List.filter, List.insertionSort, List.orderedInsert])
      (by norm_num [List.filter, List.insertionSort, List.orderedInsert,
        List.indexOf, List.findIdx, List.findIdx.go])⟩

/-- C8, counterexample: one plannable SKU (three MTS weeks, inventory in
weeks 1–2, lead time 1).  Running the pipeline twice on this identical input
— same population distribution and same `today` — does not reproduce the
first run's output collection: the module-level `all_results` list of
`old_main.py` carries the first run's rows into the second run's summary. -/
theorem rerun_not_idempotent_counterexample :
    runPlanning
        [⟨1, [⟨1, "MTS", 10, 5, 0⟩, ⟨2, "MTS", 10, 5, 0⟩, ⟨3, "MTS", 10, 0, 0⟩],
          [], 0, 1, false, none, 0⟩] none 0
        (runPlanning
          [⟨1, [⟨1, "MTS", 10, 5, 0⟩, ⟨2, "MTS", 10, 5, 0⟩, ⟨3, "MTS", 10, 0, 0⟩],
            [], 0, 1, false, none, 0⟩] none 0 [])
      ≠ runPlanning
          [⟨1, [⟨1, "MTS", 10, 5, 0⟩, ⟨2, "MTS", 10, 5, 0⟩, ⟨3, "MTS", 10, 0, 0⟩],
            [], 0, 1, false, none, 0⟩] none 0 [] := by
  have hps : (processSku none 0
      ⟨1, [⟨1, "MTS", 10, 5, 0⟩, ⟨2, "MTS", 10, 5, 0⟩, ⟨3, "MTS", 10, 0, 0⟩],
        [], 0, 1, false, none, 0⟩).isSome = true := by
    unfold processSku
    dsimp only
    rw [if_neg (by simp)]
    norm_num [List.filter, List.insertionSort, List.orderedInsert,
      List.indexOf, List.findIdx, List.findIdx.go]
    rfl
  rcases Option.isSome_iff_exists.mp hps with ⟨r, hr⟩
  intro h
  have hlen := congrArg List.length h
  simp [runPlanning, hr] at hlen

/-- C8, amended: each run of the pipeline is a deterministic function of its
inputs (the SKU data with their cov values, the population cov distribution,
and the `today` instant, which the code actually reads from the wall clock
rather than taking as an input): a re-run appends a block identical to the
first run's computed results.  But because results accumulate in the
module-level `all_results` list, the output collection after a re-run equals
the previous collection followed by that identical block, and it is
bit-identical to the previous collection only when the run plans no SKU at
all. -/
theorem rerun_appends_identical_block (inputs : List SkuData)
    (all_covs : Option (List ℚ)) (today : ℚ) (acc : List PlanResult) :
    runPlanning inputs all_covs today (runPlanning inputs all_covs today acc)
      = runPlanning inputs all_covs today acc
        ++ inputs.filterMap (processSku all_covs today)
    ∧ (runPlanning inputs all_covs today (runPlanning inputs all_covs today acc)
        = runPlanning inputs all_covs today acc
       ↔ inputs.filterMap (processSku all_covs today) = []) := by
  refine ⟨rfl, ?_, ?_⟩
  · intro h
    have hlen := congrArg List.length h
    simp only [runPlanning, List.length_append] at hlen
    have : (inputs.filterMap (processSku all_covs today)).length = 0 := by omega
    exact List.length_eq_zero.mp this
  · intro h
    simp [runPlanning, h]

/-- Witness for C8 (amended): the re-run law instantiated on the empty SKU
collection with an empty accumulator. -/
theorem rerun_appends_identical_block_witness :
    runPlanning [] none 0 (runPlanning [] none 0 [])
      = runPlanning [] none 0 []
        ++ ([] : List SkuData).filterMap (processSku none 0)
    ∧ (runPlanning [] none 0 (runPlanning [] none 0 [])
        = runPlanning [] none 0 []
       ↔ ([] : List SkuData).filterMap (processSku none 0) = []) :=
  rerun_appends_identical_block [] none 0 []

/-- Witness for C2 (amended): at raw 12.3 with increment 5 the hypotheses
hold concretely and the amended statement follows. -/
theorem rounding_amended_witness :
    (0:ℚ) < 5 ∧ (1:ℚ)/10000 < Int.fract ((123:ℚ)/10) ∧
    (applyRounding ((123:ℚ)/10) (some 5) = (⌈(123:ℚ)/10 / 5⌉ : ℚ) * 5 ∧
     applyRounding ((123:ℚ)/10) none = (⌈(123:ℚ)/10⌉ : ℚ) ∧
     applyRounding 12 (some 5) = 15 ∧
     applyRounding (25/2) none = 13) :=
  ⟨by norm_num, by norm_num [Int.fract],
   rounding_amended ((123:ℚ)/10) 5 (by norm_num) (by norm_num [Int.fract])⟩

end DDMRP
